import Mathlib

/-!
Verification development for the vacation-informer bot (`src/main.py`).

The Python source is shallowly embedded: spreadsheet cells become the
inductive `Cell`; `pandas.DataFrame` grids become `List (List Cell)`; the
persisted JSON store becomes the structure `Store` with association lists
for the per-chat dictionaries (Python dict iteration order = insertion
order, which association lists preserve); calendar dates become the
structure `Date` with exact day arithmetic via a rata-die conversion, as
`datetime.date` subtraction/`timedelta` addition are exact on days.
Python exceptions are modelled as `Option`/sum results.  The generic
`pd.to_datetime(s, dayfirst=True)` fallback parser is an oracle parameter
`gp : String → Option Date` (it is an external library routine); the four
fixed `strptime` formats are modelled exactly, including CPython's
`_strptime` regexes (`%Y` exactly 4 digits, `%y` exactly 2, `%m`/`%d` 1-2
digits, validated against the real calendar).
-/

/-! ## Python-style string primitives -/

/-- Characters treated as whitespace by `str.strip()` (ASCII subset). -/
def isPyWs (c : Char) : Bool :=
  c == ' ' || c == '\t' || c == '\n' || c == '\r'

/-- `str.strip()` on the character list. -/
def trimChars (cs : List Char) : List Char :=
  ((cs.dropWhile isPyWs).reverse.dropWhile isPyWs).reverse

/-- `str.strip()`. -/
def pyStrip (s : String) : String := ⟨trimChars s.data⟩

/-- `str.lower()` for the character ranges the keyword sets use:
ASCII letters and the Russian alphabet (`А..Я`, `Ё`). -/
def ruLowerChar (c : Char) : Char :=
  if 'A' ≤ c ∧ c ≤ 'Z' then Char.ofNat (c.toNat + 32)
  else if 0x410 ≤ c.toNat ∧ c.toNat ≤ 0x42F then Char.ofNat (c.toNat + 0x20)
  else if c.toNat = 0x401 then Char.ofNat 0x451
  else c

/-- `str.lower()`. -/
def ruLower (s : String) : String := ⟨s.data.map ruLowerChar⟩

/-- Does `s` start with `pat`? -/
def listStartsWith : List Char → List Char → Bool
  | _, [] => true
  | [], _ :: _ => false
  | a :: as, b :: bs => a == b && listStartsWith as bs

/-- Python's `pat in s` on character lists (substring containment). -/
def subSearch (pat : List Char) : List Char → Bool
  | [] => pat.isEmpty
  | c :: rest => listStartsWith (c :: rest) pat || subSearch pat rest

/-- Python's `pat in s` for strings. -/
def containsSub (s pat : String) : Bool := subSearch pat.data s.data

/-- `str.isdigit()` (ASCII digits; the spreadsheets at hand only contain
ASCII numerals). -/
def isDigitStr (s : String) : Bool :=
  s.data.length ≠ 0 && s.data.all Char.isDigit

/-- Numeric value of a digit list (most significant first). -/
def digitsVal (cs : List Char) : Nat :=
  cs.foldl (fun a c => a * 10 + (c.toNat - 48)) 0

/-- All characters are ASCII digits. -/
def allDigits (cs : List Char) : Bool := cs.all Char.isDigit

/-- Split a character list on a separator character (like `str.split(sep)`,
always returning at least one chunk). -/
def splitOnChar (sep : Char) : List Char → List (List Char)
  | [] => [[]]
  | c :: rest =>
    let r := splitOnChar sep rest
    if c == sep then [] :: r
    else
      match r with
      | h :: t => (c :: h) :: t
      | [] => [[c]]

/-- Walk the characters keeping the previous one: every `_` must be
preceded and followed by a digit (PEP 515 underscore placement in
numeric literals accepted by `float()`). -/
def undersGo (prev : Char) : List Char → Bool
  | [] => true
  | c :: rest =>
    if c = '_' then
      prev.isDigit && (match rest with | d :: _ => d.isDigit | [] => false)
        && undersGo c rest
    else undersGo c rest

/-- Underscores, if any, sit strictly between two digits. -/
def undersBetween : List Char → Bool
  | [] => true
  | c :: rest => if c = '_' then false else undersGo c rest

/-- A non-empty all-digit exponent magnitude. -/
def expMag (cs : List Char) : Option Nat :=
  if cs.isEmpty then none
  else if allDigits cs then some (digitsVal cs) else none

/-- `[sign] digits`, the exponent of a float literal, consumed whole. -/
def expDigits : List Char → Option Int
  | '-' :: r => (expMag r).map (fun n => -(n : Int))
  | '+' :: r => (expMag r).map (fun n => (n : Int))
  | r => (expMag r).map (fun n => (n : Int))

/-- The optional trailing exponent: empty means `10^0`, otherwise
`(e|E) [sign] digits`. -/
def expPart : List Char → Option Int
  | [] => some 0
  | c :: r => if c = 'e' ∨ c = 'E' then expDigits r else none

/-- Split an unsigned, underscore-free float literal
`digits [. [digits]] [(e|E) [sign] digits]` into its mantissa digits,
fraction length and exponent; at least one mantissa digit is required
and nothing may be left over (`float()` raises otherwise). -/
def floatParts (cs : List Char) : Option (List Char × Nat × Int) :=
  let intD := cs.takeWhile Char.isDigit
  let rest1 := cs.dropWhile Char.isDigit
  match rest1 with
  | [] => if intD.isEmpty then none else some (intD, 0, 0)
  | '.' :: r2 =>
    let fracD := r2.takeWhile Char.isDigit
    let rest2 := r2.dropWhile Char.isDigit
    if intD.isEmpty && fracD.isEmpty then none
    else
      match expPart rest2 with
      | some e => some (intD ++ fracD, fracD.length, e)
      | none => none
  | c :: r2 =>
    if c = 'e' ∨ c = 'E' then
      if intD.isEmpty then none
      else
        match expDigits r2 with
        | some e => some (intD, 0, e)
        | none => none
    else none

/-- Truncation towards zero of the exact decimal value `m × 10^(e − f)`
(`m` the mantissa digits' value, `f` the fraction length, `e` the
exponent). -/
def decShiftTrunc (m f : Nat) (e : Int) : Nat :=
  if (f : Int) ≤ e then m * 10 ^ (e - (f : Int)).toNat
  else m / 10 ^ ((f : Int) - e).toNat

/-- `int(float(s.strip()))` with truncation towards zero; `none` models a
raised exception.  The full decimal-literal syntax `float()` accepts is
parsed: optional sign, PEP 515 underscores between digits, optional
fraction, optional `e`/`E` exponent; the value is truncated exactly.
The named forms `inf`/`infinity`/`nan` parse as floats but make `int()`
raise, and they yield `none` here, so the row outcome agrees.  Two
boundary behaviours of the binary `float64` conversion are not modelled:
literals whose magnitude overflows to infinity (beyond `1.8e308`) make
`int()` raise where this returns a huge integer, and literals needing
more than float64's ~16 significant digits can round across an integer
boundary; every use site range-checks the result (`[1, 365]`, and the
date-overflow guard of the extractor), so the observable outcome agrees
on all such cells as well, except for the >16-digit rounding fringe. -/
def pyFloatTruncInt (s : String) : Option Int :=
  let cs0 := trimChars s.data
  if undersBetween cs0 then
    match cs0.filter (fun c => c != '_') with
    | '-' :: cs => (floatParts cs).map (fun p => -(decShiftTrunc (digitsVal p.1) p.2.1 p.2.2 : Int))
    | '+' :: cs => (floatParts cs).map (fun p => (decShiftTrunc (digitsVal p.1) p.2.1 p.2.2 : Int))
    | cs => (floatParts cs).map (fun p => (decShiftTrunc (digitsVal p.1) p.2.1 p.2.2 : Int))
  else none

/-! ## Dates -/

/-- A calendar date (as in Python `datetime.date`). -/
structure Date where
  y : Nat
  m : Nat
  d : Nat
deriving DecidableEq, Repr

/-- Gregorian leap year. -/
def isLeap (y : Nat) : Bool :=
  y % 4 = 0 && (y % 100 ≠ 0 || y % 400 = 0)

/-- Length of a month. -/
def daysInMonth (y m : Nat) : Nat :=
  if m = 2 then (if isLeap y then 29 else 28)
  else if m = 4 ∨ m = 6 ∨ m = 9 ∨ m = 11 then 30
  else 31

/-- `datetime(y, m, d)` construction: validates the ranges the Python
constructor enforces. -/
def mkValidDate (y m d : Nat) : Option Date :=
  if 1 ≤ y ∧ y ≤ 9999 ∧ 1 ≤ m ∧ m ≤ 12 ∧ 1 ≤ d ∧ d ≤ daysInMonth y m
  then some ⟨y, m, d⟩ else none

/-- Days since 1970-01-01 (Howard Hinnant's civil-from-days companion);
`datetime.date` subtraction `.days` equals the difference of these. -/
def rataDie (dt : Date) : Int :=
  let y : Int := if dt.m ≤ 2 then (dt.y : Int) - 1 else (dt.y : Int)
  let m : Int := dt.m
  let d : Int := dt.d
  let era : Int := y.ediv 400
  let yoe : Int := y - era * 400
  let doy : Int := (153 * (m + (if m > 2 then -3 else 9)) + 2).ediv 5 + d - 1
  let doe : Int := yoe * 365 + yoe.ediv 4 - yoe.ediv 100 + doy
  era * 146097 + doe - 719468

/-- Inverse of `rataDie` (civil-from-days). -/
def civilFromDays (z0 : Int) : Date :=
  let z : Int := z0 + 719468
  let era : Int := z.ediv 146097
  let doe : Int := z - era * 146097
  let yoe : Int := (doe - doe.ediv 1460 + doe.ediv 36524 - doe.ediv 146096).ediv 365
  let y : Int := yoe + era * 400
  let doy : Int := doe - (365 * yoe + yoe.ediv 4 - yoe.ediv 100)
  let mp : Int := (5 * doy + 2).ediv 153
  let d : Int := doy - (153 * mp + 2).ediv 5 + 1
  let m : Int := if mp < 10 then mp + 3 else mp - 9
  let yr : Int := if m ≤ 2 then y + 1 else y
  ⟨yr.toNat, m.toNat, d.toNat⟩

/-- `date + timedelta(days = k)`. -/
def addDays (dt : Date) (k : Int) : Date := civilFromDays (rataDie dt + k)

/-- Zero-pad to two digits. -/
def pad2 (n : Nat) : String := if n < 10 then "0" ++ toString n else toString n

/-- Zero-pad to four digits. -/
def pad4 (n : Nat) : String :=
  if n < 10 then "000" ++ toString n
  else if n < 100 then "00" ++ toString n
  else if n < 1000 then "0" ++ toString n
  else toString n

/-- `str(date)` / `strftime("%Y-%m-%d")`. -/
def isoStr (dt : Date) : String := pad4 dt.y ++ "-" ++ pad2 dt.m ++ "-" ++ pad2 dt.d

/-- Shared shape check for the fixed three-component `strptime` formats:
component lengths and digits, then `datetime` range validation. -/
def mkFromParts (ys ms ds : List Char) (ylen : Nat) : Option Date :=
  if ys.length = ylen ∧ allDigits ys ∧ 1 ≤ ms.length ∧ ms.length ≤ 2 ∧ allDigits ms
      ∧ 1 ≤ ds.length ∧ ds.length ≤ 2 ∧ allDigits ds
  then mkValidDate (digitsVal ys) (digitsVal ms) (digitsVal ds)
  else none

/-- `datetime.strptime(s, "%Y-%m-%d")` (CPython: `%Y` exactly 4 digits). -/
def parseDateISO (s : String) : Option Date :=
  match splitOnChar '-' s.data with
  | [ys, ms, ds] => mkFromParts ys ms ds 4
  | _ => none

/-- `datetime.strptime(s, "%d.%m.%Y")`. -/
def parseDateDotY (s : String) : Option Date :=
  match splitOnChar '.' s.data with
  | [ds, ms, ys] => mkFromParts ys ms ds 4
  | _ => none

/-- `datetime.strptime(s, "%d.%m.%y")`: 2-digit year, 00-68 → 2000s,
69-99 → 1900s. -/
def parseDateDotYY (s : String) : Option Date :=
  match splitOnChar '.' s.data with
  | [ds, ms, ys] =>
    if ys.length = 2 ∧ allDigits ys ∧ 1 ≤ ms.length ∧ ms.length ≤ 2 ∧ allDigits ms
        ∧ 1 ≤ ds.length ∧ ds.length ≤ 2 ∧ allDigits ds
    then
      let yy := digitsVal ys
      mkValidDate (if yy ≤ 68 then 2000 + yy else 1900 + yy) (digitsVal ms) (digitsVal ds)
    else none
  | _ => none

/-- `datetime.strptime(s, "%d/%m/%Y")`. -/
def parseDateSlash (s : String) : Option Date :=
  match splitOnChar '/' s.data with
  | [ds, ms, ys] => mkFromParts ys ms ds 4
  | _ => none

/-! ## Spreadsheet cells (`parse_vacation_df`) -/

/-- An untyped spreadsheet cell as seen through pandas: a string, an
integer-valued number, a `pd.Timestamp`, or NaN (blank). -/
inductive Cell
  | str (s : String)
  | num (n : Int)
  | ts (d : Date)
  | blank
deriving DecidableEq, Repr

/-- Python `str(cell)`: strings unchanged, numbers in decimal,
`str(Timestamp)` appends midnight, `str(nan) = "nan"`. -/
def pyStr : Cell → String
  | .str s => s
  | .num n => toString n
  | .ts d => isoStr d ++ " 00:00:00"
  | .blank => "nan"

/-- Python truthiness test `not cell` used on the date cell: falsy cells
are the empty string and the number 0. -/
def cellFalsy : Cell → Bool
  | .str s => s == ""
  | .num n => n == 0
  | _ => false

/-- The detected column layout (`col_map` in the source). -/
structure ColMap where
  fio : Nat
  org : Nat
  days : Nat
  start_date : Nat
deriving DecidableEq, Repr

/-- `str(v).lower().strip()` applied to every cell of a header-candidate
row (step 1 of `parse_vacation_df`). -/
def normCell (c : Cell) : String := pyStrip (ruLower (pyStr c))

/-- First cell matching the name keywords (`фио`/`фамили`/`сотрудник`). -/
def kwNameIdx (rv : List String) : Option Nat :=
  rv.findIdx? (fun v => containsSub v "фио" || containsSub v "фамили" || containsSub v "сотрудник")

/-- First cell matching the date keywords (`дата` with
`план`/`начал`/`запланир`, or exactly `дата`). -/
def kwDateIdx (rv : List String) : Option Nat :=
  rv.findIdx? (fun v =>
    (containsSub v "дата" && (containsSub v "план" || containsSub v "начал" || containsSub v "запланир"))
    || v == "дата")

/-- First cell matching the day-count keywords (`кол` and `дн`, or
`календарн`). -/
def kwDaysIdx (rv : List String) : Option Nat :=
  rv.findIdx? (fun v => (containsSub v "кол" && containsSub v "дн") || containsSub v "календарн")

/-- First cell matching the organization keywords
(`организ`/`филиал`/`компани`). -/
def kwOrgIdx (rv : List String) : Option Nat :=
  rv.findIdx? (fun v => containsSub v "организ" || containsSub v "филиал" || containsSub v "компани")

/-- Keyword header detection on one normalized row: needs both a name and
a date cell; days defaults to `fio+2`, organization to `fio+1`. -/
def kwDetectRow (rv : List String) : Option ColMap :=
  match kwNameIdx rv, kwDateIdx rv with
  | some f, some d =>
    some { fio := f, org := (kwOrgIdx rv).getD (f + 1),
           days := (kwDaysIdx rv).getD (f + 2), start_date := d }
  | _, _ => none

/-- Scan rows for the first keyword header; returns the column map and
`data_start_row = header row + 1`. -/
def keywordFind : List (List Cell) → Nat → Option (ColMap × Nat)
  | [], _ => none
  | r :: rest, i =>
    match kwDetectRow (r.map normCell) with
    | some cm => some (cm, i + 1)
    | none => keywordFind rest (i + 1)

/-- Step 1 of `parse_vacation_df`: keyword detection over the first
`min(20, rowcount)` rows. -/
def keywordDetect (grid : List (List Cell)) : Option (ColMap × Nat) :=
  keywordFind (grid.take 20) 0

/-- `re.match` of `\d{2}\.\d{2}\.\d{4}` (prefix match, digits only). -/
def dotDatePat : List Char → Bool
  | a :: b :: '.' :: c :: d :: '.' :: e :: f :: g :: h :: _ =>
    [a, b, c, d, e, f, g, h].all Char.isDigit
  | _ => false

/-- `re.match` of `\d{4}-\d{2}-\d{2}` (prefix match, digits only). -/
def isoDatePat : List Char → Bool
  | a :: b :: c :: d :: '-' :: e :: f :: '-' :: g :: h :: _ =>
    [a, b, c, d, e, f, g, h].all Char.isDigit
  | _ => false

/-- Step-2 date test on a cell: NaN is skipped; a `Timestamp` counts;
otherwise the stripped string form must start with `DD.MM.YYYY` or
`YYYY-MM-DD` shaped digits. -/
def isDateLike : Cell → Bool
  | .blank => false
  | .ts _ => true
  | c => dotDatePat (pyStrip (pyStr c)).data || isoDatePat (pyStrip (pyStr c)).data

/-- Step-2 day-count test on a cell: non-NaN and `int(float(str(v)))`
lands in `[1, 365]`. -/
def qualifiesDays : Cell → Bool
  | .blank => false
  | c =>
    match pyFloatTruncInt (pyStr c) with
    | some d => decide (1 ≤ d ∧ d ≤ 365)
    | none => false

/-- Left-to-right scan for the first qualifying day-count column starting
at `j` over `fuel` columns (models `for j in range(1, date_col)`). -/
def daysSearch (vals : List Cell) : Nat → Nat → Option Nat
  | _, 0 => none
  | j, fuel + 1 =>
    if qualifiesDays (vals.getD j .blank) then some j
    else daysSearch vals (j + 1) fuel

/-- The step-2 days column for a found date column: first qualifying
column in `range(1, date_col)`. -/
def daysColOf (vals : List Cell) (dateCol : Nat) : Option Nat :=
  daysSearch vals 1 (dateCol - 1)

/-- Step-2 check of one row: column 0 must be a non-empty non-`nan`
non-numeric string and some column must look like a date; days column
defaults to 2, name to 0, organization to 1. -/
def fallbackRow (vals : List Cell) : Option ColMap :=
  let col0 := match vals with
    | [] => ""
    | c :: _ => pyStrip (pyStr c)
  if col0 == "" || col0 == "nan" || isDigitStr col0 then none
  else
    match vals.findIdx? isDateLike with
    | none => none
    | some dc =>
      some { fio := 0, org := 1, days := (daysColOf vals dc).getD 2, start_date := dc }

/-- Scan rows for the first positional-fallback data row; `data_start_row`
is that row itself. -/
def fallbackFind : List (List Cell) → Nat → Option (ColMap × Nat)
  | [], _ => none
  | r :: rest, i =>
    match fallbackRow r with
    | some cm => some (cm, i)
    | none => fallbackFind rest (i + 1)

/-- Step 2 of `parse_vacation_df`: positional fallback over the first
`min(30, rowcount)` rows. -/
def fallbackDetect (grid : List (List Cell)) : Option (ColMap × Nat) :=
  fallbackFind (grid.take 30) 0

/-! ## Record extraction (step 3 of `parse_vacation_df`) -/

/-- A parsed vacation record, as persisted in the store
(`{fio, org, days, start_date, end_date}` with ISO date strings). -/
structure VacRecord where
  fio : String
  org : String
  days : Int
  start_date : String
  end_date : String
deriving DecidableEq, Repr

/-- A per-row extraction error (`{row, error, fio}`; the exception text is
not modelled). -/
structure RowErr where
  row : Nat
  fio : String
deriving DecidableEq, Repr

/-- Outcome of processing one data row. -/
inductive RowResult
  | skip
  | ok (r : VacRecord)
  | err (fio : String)
deriving DecidableEq, Repr

/-- The `gv` helper: out-of-range column or NaN becomes `""`. -/
def gv (row : List Cell) (idx : Nat) : Cell :=
  if idx < row.length then
    match row.getD idx .blank with
    | .blank => .str ""
    | c => c
  else .str ""

/-- `days = int(float(days_raw)) if days_raw and days_raw != 'nan' else 0`;
`none` models the exception on non-numeric text. -/
def parseDaysRaw (draw : String) : Option Int :=
  if draw == "" || draw == "nan" then some 0 else pyFloatTruncInt draw

/-- The date-cell parse of step 3: a native `Timestamp` directly, then the
four fixed `strptime` formats in source order, then the generic
`pd.to_datetime(·, dayfirst=True)` oracle `gp`. -/
def parseDateCell (gp : String → Option Date) (c : Cell) : Option Date :=
  match c with
  | .ts d => some d
  | c =>
    let ds := pyStrip (pyStr c)
    match parseDateDotY ds with
    | some d => some d
    | none =>
      match parseDateISO ds with
      | some d => some d
      | none =>
        match parseDateDotYY ds with
        | some d => some d
        | none =>
          match parseDateSlash ds with
          | some d => some d
          | none => gp ds

/-- Smallest/largest day numbers `datetime` supports; stepping outside
raises `OverflowError` (caught as a row error). -/
def minRata : Int := rataDie ⟨1, 1, 1⟩

/-- See `minRata`. -/
def maxRata : Int := rataDie ⟨9999, 12, 31⟩

/-- `fio = str(gv('fio', 0)).strip()`. -/
def rowFio (cm : ColMap) (row : List Cell) : String := pyStrip (pyStr (gv row cm.fio))

/-- `org = str(gv('org', 1)).strip()`. -/
def rowOrg (cm : ColMap) (row : List Cell) : String := pyStrip (pyStr (gv row cm.org))

/-- `days_raw = str(gv('days', 2)).strip()`. -/
def rowDraw (cm : ColMap) (row : List Cell) : String := pyStrip (pyStr (gv row cm.days))

/-- `date_cell = gv('start_date', 4)`. -/
def rowDateCell (cm : ColMap) (row : List Cell) : Cell := gv row cm.start_date

/-- Process one data row: silent skips for missing/placeholder name or
date, row error for unparseable date or day count (and for end-date
overflow), otherwise a record with `end_date = start_date + days`. -/
def extractRow (gp : String → Option Date) (cm : ColMap) (row : List Cell) : RowResult :=
  let fio := rowFio cm row
  let org := rowOrg cm row
  let draw := rowDraw cm row
  let dc := rowDateCell cm row
  if fio == "" || fio == "nan" || isDigitStr fio then .skip
  else if cellFalsy dc || pyStrip (pyStr dc) == "nan" || pyStrip (pyStr dc) == "" then .skip
  else
    match parseDateCell gp dc with
    | none => .err fio
    | some sd =>
      match parseDaysRaw draw with
      | none => .err fio
      | some days =>
        let er := rataDie sd + days
        if er < minRata ∨ maxRata < er then .err fio
        else
          .ok { fio := fio, org := org, days := days,
                start_date := isoStr sd, end_date := isoStr (civilFromDays er) }

/-- Walk the data rows accumulating records and errors in row order;
`i` is the absolute row index (errors record `i + 1`). -/
def extractGo (gp : String → Option Date) (cm : ColMap) :
    List (List Cell) → Nat → List VacRecord × List RowErr
  | [], _ => ([], [])
  | row :: rest, i =>
    let r := extractGo gp cm rest (i + 1)
    match extractRow gp cm row with
    | .skip => r
    | .ok rec => (rec :: r.1, r.2)
    | .err fio => (r.1, ⟨i + 1, fio⟩ :: r.2)

/-- `parse_vacation_df`: keyword pass, then positional fallback, then
`([], [])` when neither detects a layout. -/
def parseVacationDf (gp : String → Option Date) (grid : List (List Cell)) :
    List VacRecord × List RowErr :=
  match keywordDetect grid with
  | some (cm, ds) => extractGo gp cm (grid.drop ds) ds
  | none =>
    match fallbackDetect grid with
    | some (cm, ds) => extractGo gp cm (grid.drop ds) ds
    | none => ([], [])

/-! ## The persisted store -/

/-- One notification-log entry `{vacation_id, sent_at}`. -/
structure NotifEntry where
  vacation_id : Nat
  sent_at : String
deriving DecidableEq, Repr

/-- A chat's settings dict; only `notify_days` is read.  (The reserved
`"hr_chat_id"` settings key actually holds a chat-id string, but every
reader skips that key before touching the value, so the value type is
immaterial.) -/
structure ChatSettings where
  notify_days : Option Int
deriving DecidableEq, Repr

/-- The persisted `vacations` field: a per-chat dict, or the legacy flat
list. -/
inductive VacField
  | dict (m : List (String × List VacRecord))
  | flat (l : List VacRecord)
deriving DecidableEq, Repr

/-- The persisted `notifications` field: per-chat dict or legacy flat
list. -/
inductive NotifField
  | dict (m : List (String × List NotifEntry))
  | flat (l : List NotifEntry)
deriving DecidableEq, Repr

/-- The whole persisted JSON document. -/
structure Store where
  vacations : VacField
  settings : List (String × ChatSettings)
  notifications : NotifField
deriving DecidableEq, Repr

/-- Python `dict.get(k, dflt)` on an association list (first match). -/
def dget {α : Type} (m : List (String × α)) (k : String) (dflt : α) : α :=
  match m with
  | [] => dflt
  | (k', v) :: rest => if k' = k then v else dget rest k dflt

/-- Python `d[k] = v` on an association list: replace the first binding in
place, or append a fresh one. -/
def dset {α : Type} (m : List (String × α)) (k : String) (v : α) : List (String × α) :=
  match m with
  | [] => [(k, v)]
  | (k', v') :: rest => if k' = k then (k, v) :: rest else (k', v') :: dset rest k v

/-- The freshly-initialized empty store `load_data` falls back to. -/
def emptyStore : Store := ⟨.dict [], [], .dict []⟩

/-- `load_data()`: the backing document is `none` when the file is
missing, `some (.error e)` when reading/JSON-decoding raises, and
`some (.ok s)` when it parses; the failure branches recover to the empty
store instead of raising (the model is total). -/
def loadData (doc : Option (Except String Store)) : Store :=
  match doc with
  | some (.ok s) => s
  | some (.error _) => emptyStore
  | none => emptyStore

/-- The store mutation of `_download_and_parse` (lines 394-412): nothing
is written when no rows were extracted; otherwise non-dict `vacations` /
`notifications` are coerced to `{}`, the chat's vacation list is replaced
and its notification log is reset, all in one load-mutate-save cycle. -/
def uploadResult (store : Store) (chat : String) (res : List VacRecord × List RowErr) : Store :=
  if res.1.isEmpty then store
  else
    let vacD := match store.vacations with | .dict m => m | .flat _ => []
    let notifD := match store.notifications with | .dict m => m | .flat _ => []
    { vacations := .dict (dset vacD chat res.1),
      settings := store.settings,
      notifications := .dict (dset notifD chat []) }

/-- `send_status` record count (lines 340-344): per-chat lookup when
`vacations` is a dict, length of the whole legacy list otherwise. -/
def statusCount (store : Store) (chat : String) : Nat :=
  match store.vacations with
  | .dict m => (dget m chat []).length
  | .flat l => l.length

/-- The vacation list `send_schedule` works from (line 280): per-chat
lookup for a dict, the whole legacy list otherwise. -/
def scheduleVacs (store : Store) (chat : String) : List VacRecord :=
  match store.vacations with
  | .dict m => dget m chat []
  | .flat l => l

/-! ## The scan-and-send pass (`send_notifications`) -/

/-- The spec-side due predicate: the record's `start_date` parses and
`days_left = start_date − today` lies in `[0, notify_lead_days]`. -/
def dueSpec (today : Date) (nd : Int) (v : VacRecord) : Prop :=
  ∃ sd, parseDateISO v.start_date = some sd
    ∧ 0 ≤ rataDie sd - rataDie today ∧ rataDie sd - rataDie today ≤ nd

/-- The inner record loop for one chat.  `notified` holds the dedup keys;
the source builds them as the f-string `f"{vacation_id}_{today}"`, which
for a fixed `today` is in bijection with the pair
`(vacation_id, str(today))` modelled here.  Note the source pairs every
log entry with `today`, not with the entry's own `sent_at`.  Returns the
entries appended to the chat's log (sends always succeed in the model)
and the number of sends. -/
def scanChatGo (today : Date) (nd : Int) :
    List VacRecord → Nat → List (Nat × String) → List NotifEntry × Nat
  | [], _, _ => ([], 0)
  | v :: rest, idx, notified =>
    match parseDateISO v.start_date with
    | none => scanChatGo today nd rest (idx + 1) notified
    | some sd =>
      if 0 ≤ rataDie sd - rataDie today ∧ rataDie sd - rataDie today ≤ nd then
        if (idx, isoStr today) ∈ notified then scanChatGo today nd rest (idx + 1) notified
        else
          let r := scanChatGo today nd rest (idx + 1) ((idx, isoStr today) :: notified)
          (⟨idx, isoStr today⟩ :: r.1, r.2 + 1)
      else scanChatGo today nd rest (idx + 1) notified

/-- The per-chat body of the loop: read the chat's vacations and log,
build the dedup keys, run the record scan, and splice the appended
entries back in.  The mapping is untouched when nothing was sent,
matching the `setdefault` only running inside the send branch.  Returns
the updated notifications mapping and this chat's send count. -/
def chatStep (today : Date) (vacD : List (String × List VacRecord)) (cid : String)
    (nd : Int) (notifD : List (String × List NotifEntry)) :
    List (String × List NotifEntry) × Nat :=
  let log := dget notifD cid []
  let r := scanChatGo today nd (dget vacD cid []) 0
             (log.map (fun n => (n.vacation_id, isoStr today)))
  (if r.2 = 0 then notifD else dset notifD cid (log ++ r.1), r.2)

/-- The outer chat loop: skip the reserved `"hr_chat_id"` key and chats
whose `notify_days` is absent or falsy (0); otherwise run `chatStep`.
Returns the final notifications mapping and the total send count. -/
def outerGo (today : Date) (vacD : List (String × List VacRecord)) :
    List (String × ChatSettings) → List (String × List NotifEntry) → Nat →
    List (String × List NotifEntry) × Nat
  | [], notifD, cnt => (notifD, cnt)
  | (cid, cs) :: rest, notifD, cnt =>
    if cid = "hr_chat_id" then outerGo today vacD rest notifD cnt
    else
      match cs.notify_days with
      | none => outerGo today vacD rest notifD cnt
      | some nd =>
        if nd = 0 then outerGo today vacD rest notifD cnt
        else
          outerGo today vacD rest (chatStep today vacD cid nd notifD).1
            (cnt + (chatStep today vacD cid nd notifD).2)

/-- The legacy migration of the `vacations` field (a flat list becomes
`{}`). -/
def vacDictOf (s : Store) : List (String × List VacRecord) :=
  match s.vacations with | .dict m => m | .flat _ => []

/-- The legacy migration of the `notifications` field. -/
def notifDictOf (s : Store) : List (String × List NotifEntry) :=
  match s.notifications with | .dict m => m | .flat _ => []

/-- `send_notifications`: migrate legacy flat lists to empty dicts, run
the chat loop, and persist only when at least one notification was sent.
Returns the store as persisted on disk afterwards, and the send count. -/
def sendNotifications (store : Store) (today : Date) : Store × Nat :=
  let r := outerGo today (vacDictOf store) store.settings (notifDictOf store) 0
  (if 0 < r.2 then ⟨.dict (vacDictOf store), store.settings, .dict r.1⟩ else store, r.2)

/-- Modelled from the spec (claim C5's wording), for comparison with the
code's `daysColOf`: the *nearest* column preceding `d`, *strictly*
between column 1 and `d`, whose value parses as an integer in `[1, 365]`;
column 2 when none qualifies. -/
def specDaysColNearest (vals : List Cell) (d : Nat) : Nat :=
  match (List.range d).reverse.find? (fun j => 2 ≤ j && qualifiesDays (vals.getD j .blank)) with
  | some j => j
  | none => 2

/-! ## Concrete instances used by the claim theorems -/

/-- A record whose vacation starts 2024-06-05. -/
def recC1 : VacRecord := ⟨"Иванов Иван", "Орг", 14, "2024-06-05", "2024-06-19"⟩

/-- Store for claim C1: chat `c1` has lead 7, one record starting
2024-06-05, and one log entry for index 0 sent the *previous* day. -/
def storeC1 : Store :=
  ⟨.dict [("c1", [recC1])], [("c1", ⟨some 7⟩)], .dict [("c1", [⟨0, "2024-05-31"⟩])]⟩

/-- The scan day for claims C1/C8. -/
def dayJun1 : Date := ⟨2024, 6, 1⟩

/-- A record starting 2024-07-01. -/
def recC3 : VacRecord := ⟨"Петров Пётр", "Орг", 7, "2024-07-01", "2024-07-08"⟩

/-- Store whose `vacations` field is the legacy flat list. -/
def storeC3 : Store := ⟨.flat [recC3], [("c1", ⟨some 5⟩)], .dict []⟩

/-- Store whose `notifications` field is the legacy flat list. -/
def storeC3n : Store :=
  ⟨.dict [("c1", [recC3])], [("c1", ⟨some 400⟩)], .flat [⟨0, "2024-06-30"⟩]⟩

/-- A grid with a keyword header and one data row whose day-count cell is
the non-numeric text `abc`. -/
def gridC4 : List (List Cell) :=
  [[.str "ФИО", .str "Организация", .str "Кол-во дней", .str "Дата начала"],
   [.str "Иванов Иван", .str "Орг", .str "abc", .str "01.06.2024"]]

/-- A generic-parse oracle that accepts nothing (any fixed oracle works
for the concrete grids: their date cells parse via the fixed formats). -/
def gpNone : String → Option Date := fun _ => none

/-- Column map of `gridC4`'s header. -/
def cmC4 : ColMap := ⟨0, 1, 2, 3⟩

/-- Data row with an empty day-count cell. -/
def rowC4e : List Cell := [.str "Иванов Иван", .str "Орг", .str "", .str "01.06.2024"]

/-- Data row with day-count `14.7`. -/
def rowC4n : List Cell := [.str "Иванов Иван", .str "Орг", .str "14.7", .str "01.06.2024"]

/-- Data row with the exponent-form day-count `1e3`. -/
def rowC4x : List Cell := [.str "Иванов Иван", .str "Орг", .str "1e3", .str "01.06.2024"]

/-- Step-2 candidate row for claim C5: integer-like cells in columns 1 and
3, date in column 4. -/
def rowC5 : List Cell :=
  [.str "Иванов", .str "20", .str "x", .str "30", .str "01.02.2024"]

/-- Step-2 candidate row whose only qualifying day-count cell is the
exponent form `1e2` (= 100) in column 3, date in column 4. -/
def rowC5e : List Cell :=
  [.str "Иванов", .str "x", .str "y", .str "1e2", .str "01.02.2024"]

/-- Keyword header row with no day-count and no organization keyword cell
(claim C6's defaults). -/
def gridC6 : List (List Cell) :=
  [[.str "ФИО", .str "Дата"],
   [.str "Иванов Иван", .str "14", .str "01.06.2024"]]

/-- Fresh record list for the upload claim. -/
def recC7 : VacRecord := ⟨"Сидорова Анна", "Филиал", 5, "2024-08-01", "2024-08-06"⟩

/-- Store with a pre-existing notification log for chat `c1`. -/
def storeC7 : Store :=
  ⟨.dict [("c1", [recC1])], [("c1", ⟨some 3⟩)], .dict [("c1", [⟨0, "2024-05-01"⟩])]⟩

/-- The three scenario records of claim C8 (4 days away, 9 days away,
past). -/
def vacsC8 : List VacRecord :=
  [⟨"a", "o", 1, "2024-06-05", "2024-06-06"⟩,
   ⟨"b", "o", 1, "2024-06-10", "2024-06-11"⟩,
   ⟨"c", "o", 1, "2024-05-30", "2024-05-31"⟩]

/-- A grid a keyword header detects but whose only data row is blank, so
every row is silently skipped. -/
def gridC10kw : List (List Cell) :=
  [[.str "ФИО", .str "Дата"], [.blank, .blank]]

/-- A grid neither detection pass accepts. -/
def gridC10none : List (List Cell) := [[.str "x"]]

/-! ## Lemmas about the store dictionaries -/

theorem dget_dset_self {α : Type} (m : List (String × α)) (k : String) (v : α) (d : α) :
    dget (dset m k v) k d = v := by
  induction m with
  | nil => simp [dget, dset]
  | cons p rest ih =>
    obtain ⟨k', v'⟩ := p
    by_cases h : k' = k
    · simp [dset, h, dget]
    · simp [dset, h, dget, ih]

theorem dget_dset_ne {α : Type} (m : List (String × α)) (k k2 : String) (v : α) (d : α)
    (h : k ≠ k2) : dget (dset m k v) k2 d = dget m k2 d := by
  induction m with
  | nil => simp [dget, dset, h]
  | cons p rest ih =>
    obtain ⟨k', v'⟩ := p
    by_cases h' : k' = k
    · subst h'; simp [dset, dget, h]
    · by_cases h2 : k' = k2 <;> simp [dset, dget, h', h2, Ne.symm h, ih]

/-! ## Lemmas about the inner scan loop -/

theorem scanChatGo_len (today : Date) (nd : Int) :
    ∀ (vacs : List VacRecord) (idx : Nat) (notified : List (Nat × String)),
      (scanChatGo today nd vacs idx notified).1.length
        = (scanChatGo today nd vacs idx notified).2 := by
  intro vacs
  induction vacs with
  | nil => intro idx notified; simp [scanChatGo]
  | cons v rest ih =>
    intro idx notified
    cases hp : parseDateISO v.start_date with
    | none => simp only [scanChatGo, hp]; exact ih _ _
    | some sd =>
      by_cases hdue : 0 ≤ rataDie sd - rataDie today ∧ rataDie sd - rataDie today ≤ nd
      · by_cases hmem : (idx, isoStr today) ∈ notified
        · simp only [scanChatGo, hp, if_pos hdue, if_pos hmem]; exact ih _ _
        · simp only [scanChatGo, hp, if_pos hdue, if_neg hmem, List.length_cons]
          rw [ih]
      · simp only [scanChatGo, hp, if_neg hdue]; exact ih _ _

theorem scanChatGo_sound (today : Date) (nd : Int) :
    ∀ (vacs : List VacRecord) (idx : Nat) (notified : List (Nat × String))
      (e : NotifEntry), e ∈ (scanChatGo today nd vacs idx notified).1 →
      ∃ k v, vacs[k]? = some v ∧ dueSpec today nd v ∧ e.vacation_id = idx + k := by
  intro vacs
  induction vacs with
  | nil => intro idx notified e he; simp [scanChatGo] at he
  | cons v rest ih =>
    intro idx notified e he
    cases hp : parseDateISO v.start_date with
    | none =>
      rw [show scanChatGo today nd (v :: rest) idx notified
            = scanChatGo today nd rest (idx + 1) notified by
          simp only [scanChatGo, hp]] at he
      obtain ⟨k, w, hw, hdw, hv⟩ := ih _ _ _ he
      exact ⟨k + 1, w, by simpa using hw, hdw, by omega⟩
    | some sd =>
      by_cases hdue : 0 ≤ rataDie sd - rataDie today ∧ rataDie sd - rataDie today ≤ nd
      · by_cases hmem : (idx, isoStr today) ∈ notified
        · rw [show scanChatGo today nd (v :: rest) idx notified
                = scanChatGo today nd rest (idx + 1) notified by
              simp only [scanChatGo, hp, if_pos hdue, if_pos hmem]] at he
          obtain ⟨k, w, hw, hdw, hv⟩ := ih _ _ _ he
          exact ⟨k + 1, w, by simpa using hw, hdw, by omega⟩
        · rw [show (scanChatGo today nd (v :: rest) idx notified).1
                = ⟨idx, isoStr today⟩ ::
                  (scanChatGo today nd rest (idx + 1) ((idx, isoStr today) :: notified)).1 by
              simp only [scanChatGo, hp, if_pos hdue, if_neg hmem]] at he
          rcases List.mem_cons.mp he with h0 | hrest
          · refine ⟨0, v, by simp, ⟨sd, hp, hdue.1, hdue.2⟩, ?_⟩
            simp [h0]
          · obtain ⟨k, w, hw, hdw, hv⟩ := ih _ _ _ hrest
            exact ⟨k + 1, w, by simpa using hw, hdw, by omega⟩
      · rw [show scanChatGo today nd (v :: rest) idx notified
              = scanChatGo today nd rest (idx + 1) notified by
            simp only [scanChatGo, hp, if_neg hdue]] at he
        obtain ⟨k, w, hw, hdw, hv⟩ := ih _ _ _ he
        exact ⟨k + 1, w, by simpa using hw, hdw, by omega⟩

theorem scanChatGo_covers (today : Date) (nd : Int) :
    ∀ (vacs : List VacRecord) (idx : Nat) (notified : List (Nat × String))
      (k : Nat) (v : VacRecord), vacs[k]? = some v → dueSpec today nd v →
      ((idx + k, isoStr today) ∈ notified ∨
        ∃ e ∈ (scanChatGo today nd vacs idx notified).1, e.vacation_id = idx + k) := by
  intro vacs
  induction vacs with
  | nil => intro idx notified k v hk; simp at hk
  | cons v0 rest ih =>
    intro idx notified k v hk hdv
    cases k with
    | zero =>
      simp only [List.getElem?_cons_zero, Option.some.injEq] at hk
      subst hk
      obtain ⟨sd, hp, h1, h2⟩ := hdv
      by_cases hmem : (idx, isoStr today) ∈ notified
      · left; simpa using hmem
      · right
        rw [show (scanChatGo today nd (v0 :: rest) idx notified).1
              = ⟨idx, isoStr today⟩ ::
                (scanChatGo today nd rest (idx + 1) ((idx, isoStr today) :: notified)).1 by
            simp only [scanChatGo, hp, if_pos (And.intro h1 h2), if_neg hmem]]
        exact ⟨⟨idx, isoStr today⟩, List.mem_cons_self _ _, by simp⟩
    | succ k' =>
      simp only [List.getElem?_cons_succ] at hk
      cases hp : parseDateISO v0.start_date with
      | none =>
        rcases ih (idx + 1) notified k' v hk hdv with hl | hr
        · left; rw [show idx + (k' + 1) = idx + 1 + k' by omega]; exact hl
        · right
          rw [show scanChatGo today nd (v0 :: rest) idx notified
                = scanChatGo today nd rest (idx + 1) notified by
              simp only [scanChatGo, hp]]
          obtain ⟨e, he, hv⟩ := hr
          exact ⟨e, he, by omega⟩
      | some sd =>
        by_cases hdue : 0 ≤ rataDie sd - rataDie today ∧ rataDie sd - rataDie today ≤ nd
        · by_cases hmem : (idx, isoStr today) ∈ notified
          · rcases ih (idx + 1) notified k' v hk hdv with hl | hr
            · left; rw [show idx + (k' + 1) = idx + 1 + k' by omega]; exact hl
            · right
              rw [show scanChatGo today nd (v0 :: rest) idx notified
                    = scanChatGo today nd rest (idx + 1) notified by
                  simp only [scanChatGo, hp, if_pos hdue, if_pos hmem]]
              obtain ⟨e, he, hv⟩ := hr
              exact ⟨e, he, by omega⟩
          · rcases ih (idx + 1) ((idx, isoStr today) :: notified) k' v hk hdv with hl | hr
            · rcases List.mem_cons.mp (by
                  rw [show idx + 1 + k' = idx + (k' + 1) by omega] at hl; exact hl) with h0 | hnot
              · left
                exfalso
                have : idx + (k' + 1) = idx := (Prod.mk.injEq _ _ _ _).mp h0 |>.1
                omega
              · left; exact hnot
            · right
              rw [show (scanChatGo today nd (v0 :: rest) idx notified).1
                    = ⟨idx, isoStr today⟩ ::
                      (scanChatGo today nd rest (idx + 1) ((idx, isoStr today) :: notified)).1 by
                  simp only [scanChatGo, hp, if_pos hdue, if_neg hmem]]
              obtain ⟨e, he, hv⟩ := hr
              exact ⟨e, List.mem_cons_of_mem _ he, by omega⟩
        · rcases ih (idx + 1) notified k' v hk hdv with hl | hr
          · left; rw [show idx + (k' + 1) = idx + 1 + k' by omega]; exact hl
          · right
            rw [show scanChatGo today nd (v0 :: rest) idx notified
                  = scanChatGo today nd rest (idx + 1) notified by
                simp only [scanChatGo, hp, if_neg hdue]]
            obtain ⟨e, he, hv⟩ := hr
            exact ⟨e, he, by omega⟩

theorem scanChatGo_noop (today : Date) (nd : Int) :
    ∀ (vacs : List VacRecord) (idx : Nat) (notified : List (Nat × String)),
      (∀ k v, vacs[k]? = some v → dueSpec today nd v → (idx + k, isoStr today) ∈ notified) →
      scanChatGo today nd vacs idx notified = ([], 0) := by
  intro vacs
  induction vacs with
  | nil => intro idx notified _; simp [scanChatGo]
  | cons v rest ih =>
    intro idx notified hcov
    have hshift : ∀ k w, rest[k]? = some w → dueSpec today nd w →
        (idx + 1 + k, isoStr today) ∈ notified := by
      intro k w hk hdw
      have := hcov (k + 1) w (by simpa using hk) hdw
      rw [show idx + 1 + k = idx + (k + 1) by omega]
      exact this
    cases hp : parseDateISO v.start_date with
    | none => simp only [scanChatGo, hp]; exact ih _ _ hshift
    | some sd =>
      by_cases hdue : 0 ≤ rataDie sd - rataDie today ∧ rataDie sd - rataDie today ≤ nd
      · have hmem : (idx, isoStr today) ∈ notified := by
          have := hcov 0 v (by simp) ⟨sd, hp, hdue.1, hdue.2⟩
          simpa using this
        simp only [scanChatGo, hp, if_pos hdue, if_pos hmem]
        exact ih _ _ hshift
      · simp only [scanChatGo, hp, if_neg hdue]; exact ih _ _ hshift

/-! ## Lemmas about the chat loop -/

theorem chatStep_mono (today : Date) (vacD : List (String × List VacRecord)) (cid0 : String)
    (nd : Int) (notifD : List (String × List NotifEntry)) (cid : String) (e : NotifEntry)
    (he : e ∈ dget notifD cid []) :
    e ∈ dget (chatStep today vacD cid0 nd notifD).1 cid [] := by
  simp only [chatStep]
  split
  · exact he
  · by_cases hc : cid0 = cid
    · subst hc; rw [dget_dset_self]; exact List.mem_append_left _ he
    · rw [dget_dset_ne _ _ _ _ _ hc]; exact he

theorem chatStep_covers (today : Date) (vacD : List (String × List VacRecord)) (cid : String)
    (nd : Int) (notifD : List (String × List NotifEntry)) (k : Nat) (v : VacRecord)
    (hk : (dget vacD cid [])[k]? = some v) (hdv : dueSpec today nd v) :
    ∃ e ∈ dget (chatStep today vacD cid nd notifD).1 cid [], e.vacation_id = k := by
  have hcov := scanChatGo_covers today nd (dget vacD cid []) 0
      ((dget notifD cid []).map (fun n => (n.vacation_id, isoStr today))) k v hk hdv
  have hlen := scanChatGo_len today nd (dget vacD cid []) 0
      ((dget notifD cid []).map (fun n => (n.vacation_id, isoStr today)))
  simp only [chatStep]
  rcases hcov with hl | hr
  · simp only [Nat.zero_add, List.mem_map] at hl
    obtain ⟨n, hn, hpair⟩ := hl
    have hvid : n.vacation_id = k := by
      have := (Prod.mk.injEq _ _ _ _).mp hpair
      exact this.1
    refine ⟨n, ?_, hvid⟩
    split
    · exact hn
    · rw [dget_dset_self]; exact List.mem_append_left _ hn
  · simp only [Nat.zero_add] at hr
    obtain ⟨e, he, hv⟩ := hr
    refine ⟨e, ?_, hv⟩
    split
    · rename_i hz
      rw [hz] at hlen
      rw [List.length_eq_zero.mp hlen] at he
      simp at he
    · rw [dget_dset_self]; exact List.mem_append_right _ he

theorem chatStep_noop (today : Date) (vacD : List (String × List VacRecord)) (cid : String)
    (nd : Int) (notifD : List (String × List NotifEntry))
    (hcov : ∀ k v, (dget vacD cid [])[k]? = some v → dueSpec today nd v →
      ∃ e ∈ dget notifD cid [], e.vacation_id = k) :
    chatStep today vacD cid nd notifD = (notifD, 0) := by
  have hn : scanChatGo today nd (dget vacD cid []) 0
      ((dget notifD cid []).map (fun n => (n.vacation_id, isoStr today))) = ([], 0) := by
    apply scanChatGo_noop
    intro k v hk hdv
    obtain ⟨e, he, hv⟩ := hcov k v hk hdv
    simp only [Nat.zero_add, List.mem_map]
    exact ⟨e, he, by rw [hv]⟩
  simp [chatStep, hn]

theorem outerGo_mono (today : Date) (vacD : List (String × List VacRecord)) :
    ∀ (S : List (String × ChatSettings)) (notifD : List (String × List NotifEntry))
      (cnt : Nat) (cid : String) (e : NotifEntry),
      e ∈ dget notifD cid [] →
      e ∈ dget (outerGo today vacD S notifD cnt).1 cid [] := by
  intro S
  induction S with
  | nil => intro notifD cnt cid e he; simpa [outerGo] using he
  | cons p rest ih =>
    obtain ⟨cid0, cs0⟩ := p
    intro notifD cnt cid e he
    by_cases hhr : cid0 = "hr_chat_id"
    · simp only [outerGo, if_pos hhr]; exact ih _ _ _ _ he
    · cases hnd : cs0.notify_days with
      | none => simp only [outerGo, if_neg hhr, hnd]; exact ih _ _ _ _ he
      | some nd =>
        by_cases h0 : nd = 0
        · simp only [outerGo, if_neg hhr, hnd, if_pos h0]; exact ih _ _ _ _ he
        · simp only [outerGo, if_neg hhr, hnd, if_neg h0]
          exact ih _ _ _ _ (chatStep_mono _ _ _ _ _ _ _ he)

theorem outerGo_covers (today : Date) (vacD : List (String × List VacRecord)) :
    ∀ (S : List (String × ChatSettings)) (notifD : List (String × List NotifEntry))
      (cnt : Nat) (cid : String) (cs : ChatSettings) (nd : Int),
      (cid, cs) ∈ S → cid ≠ "hr_chat_id" → cs.notify_days = some nd → nd ≠ 0 →
      ∀ k v, (dget vacD cid [])[k]? = some v → dueSpec today nd v →
      ∃ e ∈ dget (outerGo today vacD S notifD cnt).1 cid [], e.vacation_id = k := by
  intro S
  induction S with
  | nil => intro notifD cnt cid cs nd hmem; simp at hmem
  | cons p rest ih =>
    obtain ⟨cid0, cs0⟩ := p
    intro notifD cnt cid cs nd hmem hhr hnd hnz k v hk hdv
    rcases List.mem_cons.mp hmem with heq | hrest
    · rw [Prod.mk.injEq] at heq
      obtain ⟨h1, h2⟩ := heq
      subst h1; subst h2
      simp only [outerGo, if_neg hhr, hnd, if_neg hnz]
      obtain ⟨e, he, hv⟩ := chatStep_covers today vacD cid nd notifD k v hk hdv
      exact ⟨e, outerGo_mono today vacD rest _ _ cid e he, hv⟩
    · by_cases hhr0 : cid0 = "hr_chat_id"
      · simp only [outerGo, if_pos hhr0]
        exact ih _ _ _ _ _ hrest hhr hnd hnz k v hk hdv
      · cases hnd0 : cs0.notify_days with
        | none =>
          simp only [outerGo, if_neg hhr0, hnd0]
          exact ih _ _ _ _ _ hrest hhr hnd hnz k v hk hdv
        | some nd0 =>
          by_cases h00 : nd0 = 0
          · simp only [outerGo, if_neg hhr0, hnd0, if_pos h00]
            exact ih _ _ _ _ _ hrest hhr hnd hnz k v hk hdv
          · simp only [outerGo, if_neg hhr0, hnd0, if_neg h00]
            exact ih _ _ _ _ _ hrest hhr hnd hnz k v hk hdv

theorem outerGo_zero (today : Date) (vacD : List (String × List VacRecord)) :
    ∀ (S : List (String × ChatSettings)) (notifD : List (String × List NotifEntry))
      (cnt : Nat),
      (∀ (cid : String) (cs : ChatSettings) (nd : Int), (cid, cs) ∈ S →
        cid ≠ "hr_chat_id" → cs.notify_days = some nd → nd ≠ 0 →
        ∀ k v, (dget vacD cid [])[k]? = some v → dueSpec today nd v →
          ∃ e ∈ dget notifD cid [], e.vacation_id = k) →
      outerGo today vacD S notifD cnt = (notifD, cnt) := by
  intro S
  induction S with
  | nil => intro notifD cnt _; simp [outerGo]
  | cons p rest ih =>
    obtain ⟨cid0, cs0⟩ := p
    intro notifD cnt hcov
    have hrest : ∀ (cid : String) (cs : ChatSettings) (nd : Int), (cid, cs) ∈ rest →
        cid ≠ "hr_chat_id" → cs.notify_days = some nd → nd ≠ 0 →
        ∀ k v, (dget vacD cid [])[k]? = some v → dueSpec today nd v →
          ∃ e ∈ dget notifD cid [], e.vacation_id = k :=
      fun cid cs nd hm => hcov cid cs nd (List.mem_cons_of_mem _ hm)
    by_cases hhr : cid0 = "hr_chat_id"
    · simp only [outerGo, if_pos hhr]; exact ih _ _ hrest
    · cases hnd : cs0.notify_days with
      | none => simp only [outerGo, if_neg hhr, hnd]; exact ih _ _ hrest
      | some nd =>
        by_cases h0 : nd = 0
        · simp only [outerGo, if_neg hhr, hnd, if_pos h0]; exact ih _ _ hrest
        · have hstep := chatStep_noop today vacD cid0 nd notifD
            (hcov cid0 cs0 nd (List.mem_cons_self _ _) hhr hnd h0)
          simp only [outerGo, if_neg hhr, hnd, if_neg h0, hstep, Nat.add_zero]
          exact ih _ _ hrest

theorem outerGo_empty_vac (today : Date) :
    ∀ (S : List (String × ChatSettings)) (notifD : List (String × List NotifEntry))
      (cnt : Nat), outerGo today [] S notifD cnt = (notifD, cnt) := by
  intro S
  induction S with
  | nil => intro notifD cnt; simp [outerGo]
  | cons p rest ih =>
    obtain ⟨cid0, cs0⟩ := p
    intro notifD cnt
    have hstep : chatStep today [] cid0 (cs0.notify_days.getD 1) notifD = (notifD, 0) := by
      simp [chatStep, dget, scanChatGo]
    by_cases hhr : cid0 = "hr_chat_id"
    · simp only [outerGo, if_pos hhr]; exact ih _ _
    · cases hnd : cs0.notify_days with
      | none => simp only [outerGo, if_neg hhr, hnd]; exact ih _ _
      | some nd =>
        by_cases h0 : nd = 0
        · simp only [outerGo, if_neg hhr, hnd, if_pos h0]; exact ih _ _
        · have hstep' : chatStep today [] cid0 nd notifD = (notifD, 0) := by
            simp [chatStep, dget, scanChatGo]
          simp only [outerGo, if_neg hhr, hnd, if_neg h0, hstep', Nat.add_zero]
          exact ih _ _

/-! ## Lemmas about layout detection -/

theorem getD_take {α : Type} (l : List α) (n j : Nat) (d : α) (h : j < n) :
    (l.take n).getD j d = l.getD j d := by
  rw [List.getD_eq_getElem?_getD, List.getD_eq_getElem?_getD, List.getElem?_take, if_pos h]

theorem keywordFind_first :
    ∀ (rows : List (List Cell)) (i0 n : Nat) (cm : ColMap),
      (∀ j, j < n → kwDetectRow ((rows.getD j []).map normCell) = none) →
      n < rows.length →
      kwDetectRow ((rows.getD n []).map normCell) = some cm →
      keywordFind rows i0 = some (cm, i0 + n + 1) := by
  intro rows
  induction rows with
  | nil => intro i0 n cm _ hn; simp at hn
  | cons r rest ih =>
    intro i0 n cm hpre hn hcm
    cases n with
    | zero =>
      rw [List.getD_cons_zero] at hcm
      simp only [keywordFind, hcm, Nat.zero_add]
    | succ n' =>
      have h0 := hpre 0 (Nat.succ_pos _)
      rw [List.getD_cons_zero] at h0
      have hrec := ih (i0 + 1) n' cm
        (fun j hj => by
          have := hpre (j + 1) (by omega)
          rwa [List.getD_cons_succ] at this)
        (by simpa using hn)
        (by rwa [List.getD_cons_succ] at hcm)
      simp only [keywordFind, h0, hrec]
      congr 2
      omega

theorem kwDetectRow_eq (rv : List String) (f d : Nat)
    (hf : kwNameIdx rv = some f) (hd : kwDateIdx rv = some d) :
    kwDetectRow rv = some ⟨f, (kwOrgIdx rv).getD (f + 1), (kwDaysIdx rv).getD (f + 2), d⟩ := by
  simp [kwDetectRow, hf, hd]

theorem daysSearch_some :
    ∀ (fuel j r : Nat) (vals : List Cell),
      daysSearch vals j fuel = some r →
      j ≤ r ∧ r < j + fuel ∧ qualifiesDays (vals.getD r .blank) = true ∧
        ∀ t, j ≤ t → t < r → qualifiesDays (vals.getD t .blank) = false := by
  intro fuel
  induction fuel with
  | zero => intro j r vals h; simp [daysSearch] at h
  | succ f ih =>
    intro j r vals h
    by_cases hq : qualifiesDays (vals.getD j .blank)
    · rw [show daysSearch vals j (f + 1)
            = if qualifiesDays (vals.getD j .blank) then some j
              else daysSearch vals (j + 1) f by simp only [daysSearch],
          if_pos hq, Option.some.injEq] at h
      subst h
      exact ⟨Nat.le_refl _, by omega, hq, fun t h1 h2 => by omega⟩
    · rw [show daysSearch vals j (f + 1)
            = if qualifiesDays (vals.getD j .blank) then some j
              else daysSearch vals (j + 1) f by simp only [daysSearch],
          if_neg hq] at h
      obtain ⟨h1, h2, h3, h4⟩ := ih (j + 1) r vals h
      refine ⟨by omega, by omega, h3, fun t ht1 ht2 => ?_⟩
      rcases Nat.eq_or_lt_of_le ht1 with he | hl
      · rw [he] at hq; exact Bool.eq_false_iff.mpr hq
      · exact h4 t hl ht2

theorem daysSearch_none :
    ∀ (fuel j : Nat) (vals : List Cell),
      daysSearch vals j fuel = none →
      ∀ t, j ≤ t → t < j + fuel → qualifiesDays (vals.getD t .blank) = false := by
  intro fuel
  induction fuel with
  | zero => intro j vals _ t h1 h2; omega
  | succ f ih =>
    intro j vals h t h1 h2
    by_cases hq : qualifiesDays (vals.getD j .blank)
    · rw [show daysSearch vals j (f + 1)
            = if qualifiesDays (vals.getD j .blank) then some j
              else daysSearch vals (j + 1) f by simp only [daysSearch],
          if_pos hq] at h
      exact absurd h (by simp)
    · rw [show daysSearch vals j (f + 1)
            = if qualifiesDays (vals.getD j .blank) then some j
              else daysSearch vals (j + 1) f by simp only [daysSearch],
          if_neg hq] at h
      rcases Nat.eq_or_lt_of_le h1 with he | hl
      · rw [he] at hq; exact Bool.eq_false_iff.mpr hq
      · exact ih (j + 1) vals h t hl (by omega)

theorem fallbackRow_eq_some (vals : List Cell) (cm : ColMap)
    (h : fallbackRow vals = some cm) :
    cm.fio = 0 ∧ cm.org = 1 ∧ vals.findIdx? isDateLike = some cm.start_date ∧
      cm.days = (daysColOf vals cm.start_date).getD 2 := by
  simp only [fallbackRow] at h
  split at h
  · exact absurd h (by simp)
  · split at h
    · exact absurd h (by simp)
    · rename_i dc hdc
      rw [Option.some.injEq] at h
      subst h
      exact ⟨rfl, rfl, hdc, rfl⟩

/-! ## Claim theorems -/

/-- Claim C1 (code bug): the claim says entries recorded on a prior day do
not suppress today's send.  The code builds every dedup key with *today's*
date instead of the entry's `sent_at`, so a prior-day entry for index 0
blocks the send: here the log holds only an entry sent 2024-05-31, the
record is due on 2024-06-01, and yet the pass sends nothing. -/
theorem claim_C1_prior_day_entry_blocks_send :
    (∀ e ∈ dget (notifDictOf storeC1) "c1" [], e.sent_at ≠ isoStr dayJun1)
    ∧ dueSpec dayJun1 7 recC1
    ∧ (sendNotifications storeC1 dayJun1).2 = 0 := by
  refine ⟨by decide, ⟨⟨2024, 6, 5⟩, by decide, by decide, by decide⟩, by decide⟩

/-- Claim C2: running the scan-and-send pass twice on the same day over
the same persisted store (all sends succeeding, as the pure model's sends
always do) sends zero notifications the second time. -/
theorem claim_C2_scan_idempotent (store : Store) (today : Date) :
    (sendNotifications (sendNotifications store today).1 today).2 = 0 := by
  by_cases hz : 0 < (outerGo today (vacDictOf store) store.settings (notifDictOf store) 0).2
  · have h1 : (sendNotifications store today).1
        = ⟨.dict (vacDictOf store), store.settings,
           .dict (outerGo today (vacDictOf store) store.settings (notifDictOf store) 0).1⟩ := by
      simp only [sendNotifications, if_pos hz]
    rw [h1]
    show (outerGo today (vacDictOf store) store.settings
        (outerGo today (vacDictOf store) store.settings (notifDictOf store) 0).1 0).2 = 0
    have hcov : ∀ (cid : String) (cs : ChatSettings) (nd : Int),
        (cid, cs) ∈ store.settings → cid ≠ "hr_chat_id" → cs.notify_days = some nd → nd ≠ 0 →
        ∀ k v, (dget (vacDictOf store) cid [])[k]? = some v → dueSpec today nd v →
          ∃ e ∈ dget (outerGo today (vacDictOf store) store.settings
              (notifDictOf store) 0).1 cid [], e.vacation_id = k :=
      fun cid cs nd hmem hhr hnd hnz k v hk hdv =>
        outerGo_covers today (vacDictOf store) store.settings (notifDictOf store) 0
          cid cs nd hmem hhr hnd hnz k v hk hdv
    rw [outerGo_zero today (vacDictOf store) store.settings _ 0 hcov]
  · have h1 : (sendNotifications store today).1 = store := by
      simp only [sendNotifications, if_neg hz]
    rw [h1]
    show (outerGo today (vacDictOf store) store.settings (notifDictOf store) 0).2 = 0
    omega

/-- Claim C3 counterexample: with a legacy flat `vacations` list the
status view counts the legacy records (1, not 0) and the schedule view
works from them, contradicting "no chat sees any records from the legacy
list" for those operations. -/
theorem claim_C3_counterexample :
    storeC3.vacations = .flat [recC3]
    ∧ statusCount storeC3 "c1" = 1 ∧ statusCount storeC3 "c1" ≠ 0
    ∧ scheduleVacs storeC3 "c1" = [recC3] ∧ scheduleVacs storeC3 "c1" ≠ [] := by
  exact ⟨rfl, rfl, by decide, rfl, by decide⟩

/-- Claim C3 (amended): the scan-and-send pass treats a legacy flat
`vacations`/`notifications` list as empty per-chat data (no sends, and a
flat log behaves exactly like an empty dict), but the schedule and status
views fall back to using the flat list itself as every chat's records; no
operation raises. -/
theorem claim_C3_amended (s : Store) (chat : String) (t : Date) :
    (∀ l, s.vacations = .flat l →
      (sendNotifications s t).2 = 0
        ∧ statusCount s chat = l.length
        ∧ scheduleVacs s chat = l)
    ∧ (∀ L, s.notifications = .flat L →
      (sendNotifications s t).2
        = (sendNotifications ⟨s.vacations, s.settings, .dict []⟩ t).2) := by
  constructor
  · intro l hv
    refine ⟨?_, ?_, ?_⟩
    · show (outerGo t (vacDictOf s) s.settings (notifDictOf s) 0).2 = 0
      have hv0 : vacDictOf s = [] := by simp [vacDictOf, hv]
      rw [hv0, outerGo_empty_vac]
    · simp [statusCount, hv]
    · simp [scheduleVacs, hv]
  · intro L hn
    show (outerGo t (vacDictOf s) s.settings (notifDictOf s) 0).2
        = (outerGo t (vacDictOf ⟨s.vacations, s.settings, .dict []⟩)
            (Store.mk s.vacations s.settings (.dict [])).settings
            (notifDictOf ⟨s.vacations, s.settings, .dict []⟩) 0).2
    have h1 : notifDictOf s = [] := by simp [notifDictOf, hn]
    rw [h1]
    rfl

/-- Witness for the amended claim C3 at concrete stores. -/
theorem claim_C3_amended_witness :
    (storeC3.vacations = VacField.flat [recC3]
      ∧ ((sendNotifications storeC3 dayJun1).2 = 0
        ∧ statusCount storeC3 "c1" = [recC3].length
        ∧ scheduleVacs storeC3 "c1" = [recC3]))
    ∧ (storeC3n.notifications = NotifField.flat [⟨0, "2024-06-30"⟩]
      ∧ (sendNotifications storeC3n dayJun1).2
        = (sendNotifications ⟨storeC3n.vacations, storeC3n.settings, .dict []⟩ dayJun1).2) :=
  ⟨⟨rfl, (claim_C3_amended storeC3 "c1" dayJun1).1 [recC3] rfl⟩,
   ⟨rfl, (claim_C3_amended storeC3n "c1" dayJun1).2 [⟨0, "2024-06-30"⟩] rfl⟩⟩

/-- Claim C4 counterexample: in `gridC4` the single data row has a valid
name and a parseable date but the non-numeric day-count text `abc`; the
claim predicts a valid record with 0 days, the code produces a row error
and no record. -/
theorem claim_C4_counterexample :
    (parseVacationDf gpNone gridC4).1 = []
    ∧ (parseVacationDf gpNone gridC4).2 = [⟨2, "Иванов Иван"⟩] := by
  exact ⟨by decide, by decide⟩

/-- Claim C4 (amended): an empty day cell (NaN reads back as `""`) or the
literal text `nan` yields 0 days and a valid record; a decimal-numeric
cell yields its integer portion; any other non-empty text raises inside
`int(float(...))` and the row becomes a row error, not a record. -/
theorem claim_C4_amended (gp : String → Option Date) (cm : ColMap) (row : List Cell)
    (sd : Date)
    (hf1 : rowFio cm row ≠ "") (hf2 : rowFio cm row ≠ "nan")
    (hf3 : isDigitStr (rowFio cm row) = false)
    (hd1 : cellFalsy (rowDateCell cm row) = false)
    (hd2 : pyStrip (pyStr (rowDateCell cm row)) ≠ "nan")
    (hd3 : pyStrip (pyStr (rowDateCell cm row)) ≠ "")
    (hp : parseDateCell gp (rowDateCell cm row) = some sd) :
    ((rowDraw cm row = "" ∨ rowDraw cm row = "nan") →
        minRata ≤ rataDie sd → rataDie sd ≤ maxRata →
        extractRow gp cm row
          = .ok ⟨rowFio cm row, rowOrg cm row, 0, isoStr sd,
                 isoStr (civilFromDays (rataDie sd + 0))⟩)
    ∧ (∀ k, pyFloatTruncInt (rowDraw cm row) = some k →
        rowDraw cm row ≠ "" → rowDraw cm row ≠ "nan" →
        minRata ≤ rataDie sd + k → rataDie sd + k ≤ maxRata →
        extractRow gp cm row
          = .ok ⟨rowFio cm row, rowOrg cm row, k, isoStr sd,
                 isoStr (civilFromDays (rataDie sd + k))⟩)
    ∧ (pyFloatTruncInt (rowDraw cm row) = none →
        rowDraw cm row ≠ "" → rowDraw cm row ≠ "nan" →
        extractRow gp cm row = .err (rowFio cm row)) := by
  have hskip1 : (rowFio cm row == "" || rowFio cm row == "nan"
      || isDigitStr (rowFio cm row)) = false := by
    simp [hf1, hf2, hf3]
  have hskip2 : (cellFalsy (rowDateCell cm row)
      || pyStrip (pyStr (rowDateCell cm row)) == "nan"
      || pyStrip (pyStr (rowDateCell cm row)) == "") = false := by
    simp [hd1, hd2, hd3]
  refine ⟨?_, ?_, ?_⟩
  · rintro hdre h1 h2
    have hdr : parseDaysRaw (rowDraw cm row) = some 0 := by
      rcases hdre with h | h <;> simp [parseDaysRaw, h]
    simp only [extractRow, hskip1, hskip2, hp, hdr, Bool.false_eq_true, if_false]
    rw [if_neg (by omega)]
  · rintro k hk hne1 hne2 h1 h2
    have hdr : parseDaysRaw (rowDraw cm row) = some k := by
      simp [parseDaysRaw, hne1, hne2, hk]
    simp only [extractRow, hskip1, hskip2, hp, hdr, Bool.false_eq_true, if_false]
    rw [if_neg (by omega)]
  · rintro hk hne1 hne2
    have hdr : parseDaysRaw (rowDraw cm row) = none := by
      simp [parseDaysRaw, hne1, hne2, hk]
    simp only [extractRow, hskip1, hskip2, hp, hdr, Bool.false_eq_true, if_false]

/-- Witness for the amended claim C4: day-count text `14.7` yields a
record with its integer portion 14, and the exponent form `1e3` yields a
record with 1000 days (as `int(float(...))` does). -/
theorem claim_C4_amended_witness :
    (pyFloatTruncInt (rowDraw cmC4 rowC4n) = some 14
      ∧ extractRow gpNone cmC4 rowC4n
        = .ok ⟨rowFio cmC4 rowC4n, rowOrg cmC4 rowC4n, 14, isoStr ⟨2024, 6, 1⟩,
               isoStr (civilFromDays (rataDie ⟨2024, 6, 1⟩ + 14))⟩)
    ∧ (pyFloatTruncInt (rowDraw cmC4 rowC4x) = some 1000
      ∧ extractRow gpNone cmC4 rowC4x
        = .ok ⟨rowFio cmC4 rowC4x, rowOrg cmC4 rowC4x, 1000, isoStr ⟨2024, 6, 1⟩,
               isoStr (civilFromDays (rataDie ⟨2024, 6, 1⟩ + 1000))⟩) :=
  ⟨⟨by decide,
    (claim_C4_amended gpNone cmC4 rowC4n ⟨2024, 6, 1⟩ (by decide) (by decide) (by decide)
       (by decide) (by decide) (by decide) (by decide)).2.1 14 (by decide) (by decide)
       (by decide) (by decide) (by decide)⟩,
   ⟨by decide,
    (claim_C4_amended gpNone cmC4 rowC4x ⟨2024, 6, 1⟩ (by decide) (by decide) (by decide)
       (by decide) (by decide) (by decide) (by decide)).2.1 1000 (by decide) (by decide)
       (by decide) (by decide) (by decide)⟩⟩

/-- Claim C5 counterexample: in `rowC5` the date column is 4 and columns 1
and 3 both parse to integers in [1,365]; the code picks the *leftmost*
(column 1), while the claim's rule (nearest preceding, strictly between
column 1 and the date column) picks column 3. -/
theorem claim_C5_counterexample :
    (fallbackRow rowC5).map ColMap.start_date = some 4
    ∧ (fallbackRow rowC5).map ColMap.days = some 1
    ∧ specDaysColNearest rowC5 4 = 3
    ∧ qualifiesDays (rowC5.getD 3 .blank) = true := by
  exact ⟨by decide, by decide, by decide, by decide⟩

/-- Claim C5 (amended): when the positional fallback fires on a row with
date column `d`, the chosen days column is the *leftmost* column `j` with
`1 ≤ j < d` (column 1 included) whose value parses to an integer in
`[1, 365]`, and column 2 is used exactly when no column in `[1, d)`
qualifies. -/
theorem claim_C5_amended (vals : List Cell) (cm : ColMap)
    (h : fallbackRow vals = some cm) :
    (1 ≤ cm.days ∧ cm.days < cm.start_date
      ∧ qualifiesDays (vals.getD cm.days .blank) = true
      ∧ ∀ t, 1 ≤ t → t < cm.days → qualifiesDays (vals.getD t .blank) = false)
    ∨ (cm.days = 2
      ∧ ∀ t, 1 ≤ t → t < cm.start_date → qualifiesDays (vals.getD t .blank) = false) := by
  obtain ⟨hf, ho, hdc, hdays⟩ := fallbackRow_eq_some vals cm h
  cases hds : daysColOf vals cm.start_date with
  | none =>
    right
    rw [hds] at hdays
    refine ⟨by simpa using hdays, ?_⟩
    intro t ht1 ht2
    exact daysSearch_none (cm.start_date - 1) 1 vals hds t ht1 (by omega)
  | some r =>
    left
    obtain ⟨h1, h2, h3, h4⟩ := daysSearch_some (cm.start_date - 1) 1 r vals hds
    rw [hds] at hdays
    simp only [Option.getD_some] at hdays
    subst hdays
    exact ⟨h1, by omega, h3, h4⟩

/-- Witness for the amended claim C5 at `rowC5`, and at `rowC5e` whose
only qualifying cell is the exponent form `1e2` (so the scan picks
column 3, not the default). -/
theorem claim_C5_amended_witness :
    (fallbackRow rowC5 = some ⟨0, 1, 1, 4⟩
      ∧ ((1 ≤ (ColMap.mk 0 1 1 4).days ∧ (ColMap.mk 0 1 1 4).days < (ColMap.mk 0 1 1 4).start_date
          ∧ qualifiesDays (rowC5.getD (ColMap.mk 0 1 1 4).days .blank) = true
          ∧ ∀ t, 1 ≤ t → t < (ColMap.mk 0 1 1 4).days →
              qualifiesDays (rowC5.getD t .blank) = false)
        ∨ ((ColMap.mk 0 1 1 4).days = 2
          ∧ ∀ t, 1 ≤ t → t < (ColMap.mk 0 1 1 4).start_date →
              qualifiesDays (rowC5.getD t .blank) = false)))
    ∧ (fallbackRow rowC5e = some ⟨0, 1, 3, 4⟩
      ∧ ((1 ≤ (ColMap.mk 0 1 3 4).days ∧ (ColMap.mk 0 1 3 4).days < (ColMap.mk 0 1 3 4).start_date
          ∧ qualifiesDays (rowC5e.getD (ColMap.mk 0 1 3 4).days .blank) = true
          ∧ ∀ t, 1 ≤ t → t < (ColMap.mk 0 1 3 4).days →
              qualifiesDays (rowC5e.getD t .blank) = false)
        ∨ ((ColMap.mk 0 1 3 4).days = 2
          ∧ ∀ t, 1 ≤ t → t < (ColMap.mk 0 1 3 4).start_date →
              qualifiesDays (rowC5e.getD t .blank) = false))) :=
  ⟨⟨by decide, claim_C5_amended rowC5 (ColMap.mk 0 1 1 4) (by decide)⟩,
   ⟨by decide, claim_C5_amended rowC5e (ColMap.mk 0 1 3 4) (by decide)⟩⟩

/-- Claim C6: if row `i` is the first of the scanned (at most 20) rows
with both a name-keyword and a date-keyword cell, the keyword pass
returns a map with `data_start_row = i + 1`, the days column defaulting
to `fio + 2` and the organization column to `fio + 1` when the respective
keyword cells are absent. -/
theorem claim_C6_keyword_header (grid : List (List Cell)) (i f d : Nat)
    (h20 : i < 20) (hlen : i < grid.length)
    (hfirst : ∀ j, j < i → kwDetectRow ((grid.getD j []).map normCell) = none)
    (hf : kwNameIdx ((grid.getD i []).map normCell) = some f)
    (hd : kwDateIdx ((grid.getD i []).map normCell) = some d) :
    ∃ cm, keywordDetect grid = some (cm, i + 1)
      ∧ cm.fio = f ∧ cm.start_date = d
      ∧ (kwDaysIdx ((grid.getD i []).map normCell) = none → cm.days = f + 2)
      ∧ (kwOrgIdx ((grid.getD i []).map normCell) = none → cm.org = f + 1) := by
  refine ⟨⟨f, (kwOrgIdx ((grid.getD i []).map normCell)).getD (f + 1),
           (kwDaysIdx ((grid.getD i []).map normCell)).getD (f + 2), d⟩, ?_, rfl, rfl, ?_, ?_⟩
  · unfold keywordDetect
    have hres := keywordFind_first (grid.take 20) 0 i
      ⟨f, (kwOrgIdx ((grid.getD i []).map normCell)).getD (f + 1),
       (kwDaysIdx ((grid.getD i []).map normCell)).getD (f + 2), d⟩
      (fun j hj => by
        rw [getD_take _ _ _ _ (lt_trans hj h20)]
        exact hfirst j hj)
      (by rw [List.length_take]; omega)
      (by rw [getD_take _ _ _ _ h20]
          exact kwDetectRow_eq ((grid.getD i []).map normCell) f d hf hd)
    simpa using hres
  · intro hnone; rw [hnone]; rfl
  · intro hnone; rw [hnone]; rfl

/-- Witness for claim C6: a header row with name and date keywords but no
day-count and no organization keyword, so both defaults fire. -/
theorem claim_C6_keyword_header_witness :
    kwNameIdx ((gridC6.getD 0 []).map normCell) = some 0
    ∧ kwDateIdx ((gridC6.getD 0 []).map normCell) = some 1
    ∧ ∃ cm, keywordDetect gridC6 = some (cm, 0 + 1)
      ∧ cm.fio = 0 ∧ cm.start_date = 1
      ∧ (kwDaysIdx ((gridC6.getD 0 []).map normCell) = none → cm.days = 0 + 2)
      ∧ (kwOrgIdx ((gridC6.getD 0 []).map normCell) = none → cm.org = 0 + 1) :=
  ⟨by decide, by decide,
   claim_C6_keyword_header gridC6 0 0 1 (by omega) (by decide)
     (fun j hj => absurd hj (by omega)) (by decide) (by decide)⟩

/-- Claim C7: a successful upload of a non-empty record list replaces
that chat's vacation list and resets its notification log to empty in
the same load-mutate-save cycle. -/
theorem claim_C7_upload_replaces_and_resets (store : Store) (chat : String)
    (rows : List VacRecord) (errs : List RowErr) (h : rows ≠ []) :
    (uploadResult store chat (rows, errs)).vacations
      = .dict (dset (vacDictOf store) chat rows)
    ∧ dget (dset (vacDictOf store) chat rows) chat [] = rows
    ∧ (uploadResult store chat (rows, errs)).notifications
      = .dict (dset (notifDictOf store) chat [])
    ∧ dget (dset (notifDictOf store) chat []) chat [] = [] := by
  have hne : (rows, errs).1.isEmpty = false := by
    cases rows with
    | nil => exact absurd rfl h
    | cons a l => rfl
  refine ⟨?_, dget_dset_self _ _ _ _, ?_, dget_dset_self _ _ _ _⟩
  · simp only [uploadResult, hne, Bool.false_eq_true, if_false]
    rfl
  · simp only [uploadResult, hne, Bool.false_eq_true, if_false]
    rfl

/-- Witness for claim C7 at a concrete store with a prior log entry. -/
theorem claim_C7_upload_replaces_and_resets_witness :
    [recC7] ≠ ([] : List VacRecord)
    ∧ ((uploadResult storeC7 "c1" ([recC7], [])).vacations
        = .dict (dset (vacDictOf storeC7) "c1" [recC7])
      ∧ dget (dset (vacDictOf storeC7) "c1" [recC7]) "c1" [] = [recC7]
      ∧ (uploadResult storeC7 "c1" ([recC7], [])).notifications
        = .dict (dset (notifDictOf storeC7) "c1" [])
      ∧ dget (dset (notifDictOf storeC7) "c1" []) "c1" [] = []) :=
  ⟨by decide, claim_C7_upload_replaces_and_resets storeC7 "c1" [recC7] [] (by decide)⟩

/-- Claim C8: with an empty dedup set, the scan sends for index `idx`
exactly when the record's `start_date` parses and
`0 ≤ start_date − today ≤ notify_lead_days`; concretely with lead 7 on
2024-06-01, only the record starting 2024-06-05 out of the three scenario
records is sent (2024-06-10 and 2024-05-30 are excluded). -/
theorem claim_C8_due_window :
    (∀ (today : Date) (nd : Int) (vacs : List VacRecord) (idx : Nat),
      (∃ e ∈ (scanChatGo today nd vacs 0 []).1, e.vacation_id = idx)
        ↔ ∃ v, vacs[idx]? = some v ∧ dueSpec today nd v)
    ∧ (scanChatGo dayJun1 7 vacsC8 0 []).1.map NotifEntry.vacation_id = [0] := by
  constructor
  · intro today nd vacs idx
    constructor
    · rintro ⟨e, he, hv⟩
      obtain ⟨k, v, hk, hdv, hid⟩ := scanChatGo_sound today nd vacs 0 [] e he
      rw [Nat.zero_add] at hid
      have hik : idx = k := by rw [hv] at hid; exact hid
      subst hik
      exact ⟨v, hk, hdv⟩
    · rintro ⟨v, hk, hdv⟩
      rcases scanChatGo_covers today nd vacs 0 [] idx v hk hdv with hl | hr
      · simp at hl
      · obtain ⟨e, he, hv⟩ := hr
        exact ⟨e, he, by simpa using hv⟩
  · decide

/-- Claim C9: the store load never raises: a missing backing document and
an unreadable one both yield the freshly-initialized empty store with
empty `vacations`, `settings` and `notifications`. -/
theorem claim_C9_load_never_raises :
    loadData none = emptyStore
    ∧ (∀ e, loadData (some (.error e)) = emptyStore)
    ∧ emptyStore.vacations = .dict [] ∧ emptyStore.settings = []
    ∧ emptyStore.notifications = .dict [] :=
  ⟨rfl, fun _ => rfl, rfl, rfl, rfl⟩

/-- Claim C10: with no detected layout `parse_vacation_df` returns
`([], [])`; the same value arises from a detected layout whose data rows
are all silently skipped (`gridC10kw`); and the caller leaves the store
untouched whenever the record list is empty. -/
theorem claim_C10_no_layout_indistinguishable :
    (∀ (gp : String → Option Date) (grid : List (List Cell)),
      keywordDetect grid = none → fallbackDetect grid = none →
      parseVacationDf gp grid = ([], []))
    ∧ (keywordDetect gridC10kw ≠ none ∧ parseVacationDf gpNone gridC10kw = ([], []))
    ∧ (∀ (store : Store) (chat : String) (errs : List RowErr),
      uploadResult store chat ([], errs) = store) := by
  refine ⟨?_, ⟨by decide, by decide⟩, ?_⟩
  · intro gp grid hk hf
    simp [parseVacationDf, hk, hf]
  · intro store chat errs
    rfl

/-- Witness for claim C10 at a grid neither pass detects. -/
theorem claim_C10_no_layout_indistinguishable_witness :
    keywordDetect gridC10none = none ∧ fallbackDetect gridC10none = none
    ∧ parseVacationDf gpNone gridC10none = ([], [])
    ∧ uploadResult storeC7 "c1" ([], []) = storeC7 :=
  ⟨by decide, by decide,
   claim_C10_no_layout_indistinguishable.1 gpNone gridC10none (by decide) (by decide),
   claim_C10_no_layout_indistinguishable.2.2 storeC7 "c1" []⟩
